import Mathlib

/-!
Shallow embedding of `src/components/Agent.tsx` from the AI-Mock-Interview
repository.

The component is a state machine over four pieces of React state
(`callStatus`, `messages`, `isSpeaking`, `lastMessage`) driven by six
event callbacks registered on the external voice SDK, one user-initiated
start handler (`handleCall`), one disconnect handler (`handleDisconnect`),
and one completion `useEffect` whose dependency list contains `messages`
and `callStatus`.

Modelling choices:
- Each handler is embedded as a pure function returning the list of
  `Effect`s it performs, in program order (state writes, navigations,
  alerts, console logs, external-SDK calls).  The component state is then
  obtained by folding `applyEffect` over that list.
- JavaScript string falsiness (`!x` true for `undefined` and `""`) is
  modelled by `truthyOpt` / `truthyStr`.
- The outcome of the awaited external calls (`vapi.start`,
  `createFeedback`) is passed in as data (`StartResult`,
  `FeedbackResult`), since those collaborators are outside the repository.
- The React effect semantics is modelled in `stepAgent`: after the
  handler state-writes of an event are applied, the completion effect re-runs exactly
  when one of its state dependencies (`messages`, `callStatus`) changed;
  props are constant for a mounted instance.
-/

inductive CallStatus
  | INACTIVE
  | CONNECTING
  | ACTIVE
  | FINISHED
deriving DecidableEq, Repr

inductive Role
  | user
  | system
  | assistant
deriving DecidableEq, Repr

structure SavedMessage where
  role : Role
  content : String
deriving DecidableEq, Repr

inductive AgentType
  | generate
  | normal
deriving DecidableEq, Repr

/-- The `AgentProps` of the component; `interviewId`, `feedbackId` and
`questions` are optional, `type` selects the session-start mode. -/
structure AgentProps where
  userName : String
  userId : String
  interviewId : Option String
  feedbackId : Option String
  type : AgentType
  questions : Option (List String)
deriving DecidableEq, Repr

/-- An event object delivered to the `message` callback: fields `type`,
`transcriptType`, `role`, `transcript` of the SDK message. -/
structure VapiMessage where
  type : String
  transcriptType : String
  role : Role
  transcript : String
deriving DecidableEq, Repr

/-- Result of the awaited `createFeedback` backend call: a `success` flag
and an optional returned `feedbackId`. -/
structure FeedbackResult where
  success : Bool
  feedbackId : Option String
deriving DecidableEq, Repr

/-- Outcome of the awaited `vapi.start` call: either it returns, or it
throws an error whose `message` field may be absent or empty. -/
inductive StartResult
  | ok
  | fail (msg : Option String)
deriving DecidableEq, Repr

/-- JavaScript truthiness of an optional string: `undefined` and `""` are
falsy. -/
def truthyOpt : Option String → Bool
  | none => false
  | some s => s != ""

/-- JavaScript truthiness of a string: `""` is falsy. -/
def truthyStr (s : String) : Bool :=
  s != ""

/-- JavaScript `m || d` on an optional string `m`: the message text when
truthy, otherwise the default. -/
def falsyOr (m : Option String) (d : String) : String :=
  match m with
  | some s => if s != "" then s else d
  | none => d

/-- The four React state cells of the component. -/
structure AgentState where
  callStatus : CallStatus
  messages : List SavedMessage
  isSpeaking : Bool
  lastMessage : String
deriving DecidableEq, Repr

/-- Initial state of a freshly mounted component. -/
def initState : AgentState :=
  { callStatus := CallStatus.INACTIVE
    messages := []
    isSpeaking := false
    lastMessage := "" }

/-- One observable action of the component: a state write, a navigation,
an alert, a console log, or an external-SDK call. -/
inductive Effect
  | setStatus (s : CallStatus)
  | appendMessage (m : SavedMessage)
  | setSpeaking (b : Bool)
  | setLastMessage (s : String)
  | navigate (route : String)
  | callCreateFeedback (interviewId : String) (userId : String)
      (transcript : List SavedMessage) (feedbackId : Option String)
  | alertUser (text : String)
  | logConsole (text : String)
  | vapiStartWorkflow (workflowId : String) (username : String) (userid : String)
  | vapiStartAssistant (questions : String)
  | vapiStop
deriving DecidableEq, Repr

/-- Applying one effect to the component state; effects other than the
four state writes leave the state unchanged. -/
def applyEffect (st : AgentState) : Effect → AgentState
  | Effect.setStatus s => { st with callStatus := s }
  | Effect.appendMessage m => { st with messages := st.messages ++ [m] }
  | Effect.setSpeaking b => { st with isSpeaking := b }
  | Effect.setLastMessage s => { st with lastMessage := s }
  | _ => st

def applyEffects (st : AgentState) (effs : List Effect) : AgentState :=
  effs.foldl applyEffect st

/-- The `onCallStart` callback. -/
def onCallStart : List Effect :=
  [Effect.setStatus CallStatus.ACTIVE]

/-- The `onCallEnd` callback. -/
def onCallEnd : List Effect :=
  [Effect.setStatus CallStatus.FINISHED]

/-- The guard of `onMessage`: `message.type === "transcript" &&
message.transcriptType === "final"`. -/
def isFinalTranscript (m : VapiMessage) : Bool :=
  m.type == "transcript" && m.transcriptType == "final"

/-- The `newMessage` object built by `onMessage`. -/
def newMessageOf (m : VapiMessage) : SavedMessage :=
  { role := m.role, content := m.transcript }

/-- The `onMessage` callback: append one message for a final transcript
fragment, ignore everything else. -/
def onMessage (m : VapiMessage) : List Effect :=
  if isFinalTranscript m then [Effect.appendMessage (newMessageOf m)] else []

/-- The `onSpeechStart` callback. -/
def onSpeechStart : List Effect :=
  [Effect.setSpeaking true]

/-- The `onSpeechEnd` callback. -/
def onSpeechEnd : List Effect :=
  [Effect.setSpeaking false]

/-- The `onError` callback: `console.log("Error:", error)` only. -/
def onError : List Effect :=
  [Effect.logConsole "Error:"]

/-- The `handleGenerateFeedback` function defined inside the completion
effect, applied to the transcript, after the awaited `createFeedback`
result `fb` is known. -/
def handleGenerateFeedback (props : AgentProps) (fb : FeedbackResult)
    (messages : List SavedMessage) : List Effect :=
  if !(truthyOpt props.interviewId) || !(truthyStr props.userId) then
    [Effect.logConsole "Missing interviewId or userId for feedback generation.",
     Effect.navigate "/"]
  else
    Effect.callCreateFeedback (props.interviewId.getD "") props.userId
        messages props.feedbackId ::
    (if fb.success && truthyOpt fb.feedbackId then
       [Effect.navigate ("/interview/" ++ props.interviewId.getD "" ++ "/feedback")]
     else
       [Effect.navigate "/"])

/-- The completion `useEffect` body, run against the rendered state `st`.
The first part models `if (messages.length > 0)
setLastMessage(messages[messages.length - 1].content)`; `getLast?` is
`some` exactly when the length is positive and then yields the element at
index `length - 1`. -/
def completionEffect (props : AgentProps) (fb : FeedbackResult)
    (st : AgentState) : List Effect :=
  (match st.messages.getLast? with
   | some m => [Effect.setLastMessage m.content]
   | none => []) ++
  (if st.callStatus = CallStatus.FINISHED then
     if props.type = AgentType.generate then
       [Effect.navigate "/"]
     else
       handleGenerateFeedback props fb st.messages
   else [])

/-- The `formattedQuestions` computation of `handleCall`: dash-prefixed
lines joined by newlines, the empty string when `questions` is absent. -/
def formatQuestions : Option (List String) → String
  | none => ""
  | some qs => String.intercalate "\n" (qs.map (fun question => "- " ++ question))

/-- The `handleCall` start handler.  `env` is
`process.env.NEXT_PUBLIC_VAPI_WORKFLOW_ID`; `interviewerPresent` is the
truthiness of the imported `interviewer` constant; `res` is the outcome of
the awaited `vapi.start` call (emitted as a `vapiStart` effect whenever it
is reached, whether it returns or throws). -/
def handleCall (props : AgentProps) (env : Option String)
    (interviewerPresent : Bool) (res : StartResult) : List Effect :=
  Effect.setStatus CallStatus.CONNECTING ::
  (match props.type with
   | AgentType.generate =>
     if !(truthyOpt env) then
       [Effect.alertUser
          "Vapi Workflow ID must be provided to start the call for \x27generate\x27 type.",
        Effect.setStatus CallStatus.INACTIVE]
     else
       Effect.vapiStartWorkflow (env.getD "") props.userName props.userId ::
       (match res with
        | StartResult.ok => []
        | StartResult.fail msg =>
          [Effect.alertUser
             ("Something went wrong: " ++ falsyOr msg "Failed to start interview."),
           Effect.setStatus CallStatus.INACTIVE])
   | AgentType.normal =>
     if !interviewerPresent then
       [Effect.alertUser "Assistant (interviewer) must be provided to start the call.",
        Effect.setStatus CallStatus.INACTIVE]
     else
       Effect.vapiStartAssistant (formatQuestions props.questions) ::
       (match res with
        | StartResult.ok => []
        | StartResult.fail msg =>
          [Effect.alertUser
             ("Something went wrong: " ++ falsyOr msg "Failed to start interview."),
           Effect.setStatus CallStatus.INACTIVE]))

/-- The `handleDisconnect` handler. -/
def handleDisconnect : List Effect :=
  [Effect.setStatus CallStatus.FINISHED, Effect.vapiStop]

/-- One input to the mounted component: an SDK event, the user pressing
Call (with the environment and external outcomes it observes), or the
user pressing End. -/
inductive AgentEvent
  | callStart
  | callEnd
  | message (m : VapiMessage)
  | speechStart
  | speechEnd
  | errorEvt
  | userStart (env : Option String) (interviewerPresent : Bool) (res : StartResult)
  | disconnect
deriving DecidableEq, Repr

/-- The handler the component runs for each input. -/
def handlerEffects (props : AgentProps) : AgentEvent → List Effect
  | AgentEvent.callStart => onCallStart
  | AgentEvent.callEnd => onCallEnd
  | AgentEvent.message m => onMessage m
  | AgentEvent.speechStart => onSpeechStart
  | AgentEvent.speechEnd => onSpeechEnd
  | AgentEvent.errorEvt => onError
  | AgentEvent.userStart env ip res => handleCall props env ip res
  | AgentEvent.disconnect => handleDisconnect

/-- One step of the mounted component: run the handler, then re-run the
completion effect exactly when one of its state dependencies (`messages`,
`callStatus`) changed.  Returns the new state and the effect trace. -/
def stepAgent (props : AgentProps) (fb : FeedbackResult) (st : AgentState)
    (e : AgentEvent) : AgentState × List Effect :=
  if (applyEffects st (handlerEffects props e)).messages ≠ st.messages ∨
     (applyEffects st (handlerEffects props e)).callStatus ≠ st.callStatus then
    (applyEffects (applyEffects st (handlerEffects props e))
       (completionEffect props fb (applyEffects st (handlerEffects props e))),
     handlerEffects props e ++
       completionEffect props fb (applyEffects st (handlerEffects props e)))
  else
    (applyEffects st (handlerEffects props e), handlerEffects props e)

/-- Run a sequence of inputs from a given state, accumulating the effect
trace. -/
def runSteps (props : AgentProps) (fb : FeedbackResult) (st : AgentState) :
    List AgentEvent → AgentState × List Effect
  | [] => (st, [])
  | e :: rest =>
    let r := stepAgent props fb st e
    let rr := runSteps props fb r.1 rest
    (rr.1, r.2 ++ rr.2)

/-- Run a sequence of inputs on a freshly mounted component. -/
def runAgent (props : AgentProps) (fb : FeedbackResult)
    (events : List AgentEvent) : AgentState × List Effect :=
  runSteps props fb initState events

/-- Recognizer for the feedback-collaborator call effect. -/
def isFeedbackCall : Effect → Bool
  | Effect.callCreateFeedback _ _ _ _ => true
  | _ => false

/-- Recognizer for a navigation to a given route. -/
def isNavigateTo (route : String) : Effect → Bool
  | Effect.navigate r => r == route
  | _ => false

/-- Recognizer for either shape of the external `vapi.start` call. -/
def isVapiStart : Effect → Bool
  | Effect.vapiStartWorkflow _ _ _ => true
  | Effect.vapiStartAssistant _ => true
  | _ => false

/-- Recognizer for a user-facing alert. -/
def isAlert : Effect → Bool
  | Effect.alertUser _ => true
  | _ => false

/-- Effects that do not write any state cell. -/
def Effect.isPure : Effect → Bool
  | Effect.setStatus _ => false
  | Effect.appendMessage _ => false
  | Effect.setSpeaking _ => false
  | Effect.setLastMessage _ => false
  | _ => true

/-! ### Basic lemmas about effect application -/

lemma applyEffects_nil (st : AgentState) : applyEffects st [] = st := rfl

lemma applyEffects_cons (st : AgentState) (a : Effect) (t : List Effect) :
    applyEffects st (a :: t) = applyEffects (applyEffect st a) t := rfl

lemma applyEffects_append (st : AgentState) (l1 l2 : List Effect) :
    applyEffects st (l1 ++ l2) = applyEffects (applyEffects st l1) l2 := by
  simp [applyEffects, List.foldl_append]

lemma applyEffect_of_isPure (st : AgentState) (e : Effect) (h : e.isPure = true) :
    applyEffect st e = st := by
  cases e <;> first | rfl | simp [Effect.isPure] at h

lemma applyEffects_of_pure (st : AgentState) (l : List Effect)
    (h : ∀ e ∈ l, e.isPure = true) : applyEffects st l = st := by
  induction l generalizing st with
  | nil => rfl
  | cons a t ih =>
    rw [applyEffects_cons, applyEffect_of_isPure st a (h a (by simp))]
    exact ih st (fun e he => h e (by simp [he]))

lemma handleGenerateFeedback_pure (props : AgentProps) (fb : FeedbackResult)
    (ms : List SavedMessage) :
    ∀ e ∈ handleGenerateFeedback props fb ms, e.isPure = true := by
  intro e he
  unfold handleGenerateFeedback at he
  split at he
  · rcases List.mem_cons.mp he with h | h
    · subst h; rfl
    · simp at h; subst h; rfl
  · rcases List.mem_cons.mp he with h | h
    · subst h; rfl
    · split at h <;> simp at h <;> subst h <;> rfl

/-- The state change of one completion-effect run: only `lastMessage` is
written, and only when the transcript is non-empty. -/
lemma completion_state (props : AgentProps) (fb : FeedbackResult) (st : AgentState) :
    applyEffects st (completionEffect props fb st) =
      match st.messages.getLast? with
      | some m => { st with lastMessage := m.content }
      | none => st := by
  have hpure : ∀ e ∈ (if st.callStatus = CallStatus.FINISHED then
      if props.type = AgentType.generate then [Effect.navigate "/"]
      else handleGenerateFeedback props fb st.messages
    else []), e.isPure = true := by
    intro e he
    split at he
    · split at he
      · simp at he; subst he; rfl
      · exact handleGenerateFeedback_pure props fb st.messages e he
    · simp at he
  unfold completionEffect
  rw [applyEffects_append]
  cases hl : st.messages.getLast? with
  | none => rw [applyEffects_nil, applyEffects_of_pure _ _ hpure]
  | some m => rw [applyEffects_of_pure _ _ hpure]; rfl

lemma completion_messages (props : AgentProps) (fb : FeedbackResult) (st : AgentState) :
    (applyEffects st (completionEffect props fb st)).messages = st.messages := by
  have h := completion_state props fb st
  cases hl : st.messages.getLast? <;> rw [hl] at h <;> rw [h]

lemma completion_callStatus (props : AgentProps) (fb : FeedbackResult) (st : AgentState) :
    (applyEffects st (completionEffect props fb st)).callStatus = st.callStatus := by
  have h := completion_state props fb st
  cases hl : st.messages.getLast? <;> rw [hl] at h <;> rw [h]

/-- `handleCall` always leaves the status at `CONNECTING` or reverts it to
`INACTIVE`, touching no other state cell. -/
lemma handleCall_apply (props : AgentProps) (env : Option String) (ip : Bool)
    (res : StartResult) (st : AgentState) :
    applyEffects st (handleCall props env ip res)
        = { st with callStatus := CallStatus.CONNECTING } ∨
    applyEffects st (handleCall props env ip res)
        = { st with callStatus := CallStatus.INACTIVE } := by
  cases htype : props.type <;> cases res <;>
    cases henv : truthyOpt env <;> cases ip <;>
    simp [handleCall, htype, henv, applyEffects, applyEffect]

/-! ### Step-level lemmas -/

/-- The completion effect never writes `callStatus`, so a step's final
status is the status after the handler state-writes. -/
lemma stepAgent_callStatus (props : AgentProps) (fb : FeedbackResult)
    (st : AgentState) (e : AgentEvent) :
    (stepAgent props fb st e).1.callStatus
      = (applyEffects st (handlerEffects props e)).callStatus := by
  unfold stepAgent
  split
  · exact completion_callStatus props fb _
  · rfl

/-- No handler writes `lastMessage`, and a handler changes `messages` at
most by appending one element. -/
lemma handler_state (props : AgentProps) (st : AgentState) (e : AgentEvent) :
    (applyEffects st (handlerEffects props e)).lastMessage = st.lastMessage ∧
    ((applyEffects st (handlerEffects props e)).messages = st.messages ∨
     ∃ m, (applyEffects st (handlerEffects props e)).messages = st.messages ++ [m]) := by
  cases e with
  | message m =>
    simp only [handlerEffects, onMessage]
    cases hm : isFinalTranscript m with
    | false => simp [hm, applyEffects]
    | true =>
      simp only [hm, if_true]
      exact ⟨rfl, Or.inr ⟨newMessageOf m, rfl⟩⟩
  | userStart env ip res =>
    rcases handleCall_apply props env ip res st with h | h <;>
      simp [handlerEffects, h]
  | _ =>
    simp [handlerEffects, onCallStart, onCallEnd, onSpeechStart, onSpeechEnd,
      onError, handleDisconnect, applyEffects, applyEffect]

lemma append_singleton_ne (l : List SavedMessage) (m : SavedMessage) :
    l ++ [m] ≠ l := by
  intro h
  have := congrArg List.length h
  simp at this

/-- Transcript change of one `message` event: append the converted message
when the fragment is final, otherwise no change. -/
lemma stepAgent_messages_msg (props : AgentProps) (fb : FeedbackResult)
    (st : AgentState) (m : VapiMessage) :
    (stepAgent props fb st (AgentEvent.message m)).1.messages
      = st.messages ++ (if isFinalTranscript m then [newMessageOf m] else []) := by
  unfold stepAgent
  simp only [handlerEffects, onMessage]
  cases hm : isFinalTranscript m with
  | false => simp [applyEffects]
  | true =>
    simp only [if_true]
    have hne : (applyEffects st [Effect.appendMessage (newMessageOf m)]).messages
        ≠ st.messages := by
      simp [applyEffects, applyEffect]
    rw [if_pos (Or.inl hne)]
    rw [completion_messages]
    simp [applyEffects, applyEffect]

/-- Accumulated transcript over any sequence of `message` events. -/
lemma runSteps_messages (props : AgentProps) (fb : FeedbackResult)
    (ms : List VapiMessage) :
    ∀ st : AgentState,
      (runSteps props fb st (ms.map AgentEvent.message)).1.messages
        = st.messages ++ (ms.filter isFinalTranscript).map newMessageOf := by
  induction ms with
  | nil => intro st; simp [runSteps]
  | cons m t ih =>
    intro st
    simp only [List.map_cons, runSteps]
    rw [ih, stepAgent_messages_msg]
    cases hm : isFinalTranscript m <;>
      simp [hm, List.filter_cons]

/-- Invariant relating the displayed `lastMessage` to the transcript. -/
def lastMsgInv (st : AgentState) : Prop :=
  (st.messages = [] → st.lastMessage = "") ∧
  ∀ m, st.messages.getLast? = some m → st.lastMessage = m.content

lemma completion_inv (props : AgentProps) (fb : FeedbackResult) (st : AgentState)
    (h0 : st.messages = [] → st.lastMessage = "") :
    lastMsgInv (applyEffects st (completionEffect props fb st)) := by
  have hc := completion_state props fb st
  cases hl : st.messages.getLast? with
  | none =>
    rw [hl] at hc
    rw [hc]
    refine ⟨h0, fun m hm => ?_⟩
    rw [hl] at hm
    cases hm
  | some m =>
    rw [hl] at hc
    rw [hc]
    constructor
    · intro hemp
      have hemp2 : st.messages = [] := hemp
      rw [hemp2] at hl
      cases hl
    · intro m' hm'
      have hm2 : st.messages.getLast? = some m' := hm'
      rw [hl] at hm2
      cases hm2
      rfl

lemma step_inv (props : AgentProps) (fb : FeedbackResult) (st : AgentState)
    (e : AgentEvent) (h : lastMsgInv st) : lastMsgInv (stepAgent props fb st e).1 := by
  have hs := handler_state props st e
  unfold stepAgent
  split
  · apply completion_inv
    intro hemp
    rcases hs.2 with heq | ⟨m, heq⟩
    · rw [heq] at hemp
      rw [hs.1]
      exact h.1 hemp
    · rw [heq] at hemp
      exact absurd hemp (by simp)
  · rename_i hc
    push_neg at hc
    constructor
    · intro hemp
      rw [hc.1] at hemp
      rw [hs.1]
      exact h.1 hemp
    · intro m hm
      rw [hc.1] at hm
      rw [hs.1]
      exact h.2 m hm

lemma runSteps_inv (props : AgentProps) (fb : FeedbackResult)
    (events : List AgentEvent) :
    ∀ st : AgentState, lastMsgInv st → lastMsgInv (runSteps props fb st events).1 := by
  induction events with
  | nil => intro st h; exact h
  | cons e t ih =>
    intro st h
    simp only [runSteps]
    exact ih _ (step_inv props fb st e h)

lemma initState_inv : lastMsgInv initState :=
  ⟨fun _ => rfl, fun _ hm => by cases hm⟩

/-! ### Concrete fixtures -/

/-- Concrete props for a normal-mode interview with valid identifiers. -/
def propsNormW : AgentProps :=
  { userName := "Ada", userId := "u1", interviewId := some "i1",
    feedbackId := none, type := AgentType.normal, questions := some ["a", "b"] }

/-- Concrete props for a generate-mode session. -/
def propsGenW : AgentProps :=
  { userName := "Ada", userId := "u1", interviewId := none,
    feedbackId := none, type := AgentType.generate, questions := none }

/-- A successful feedback response carrying the id f1. -/
def fbW : FeedbackResult := { success := true, feedbackId := some "f1" }

/-- A final transcript fragment. -/
def msgW : VapiMessage :=
  { type := "transcript", transcriptType := "final", role := Role.user,
    transcript := "hello" }

/-- A state whose call has finished with an empty transcript. -/
def stFin : AgentState := { initState with callStatus := CallStatus.FINISHED }

/-! ### Claim theorems -/

/-- Claim C1 (code bug witness): in normal mode with valid identifiers and
a successful feedback response with id f1, delivering a final transcript
fragment after the call-end event makes the completion effect re-run while
the status is still FINISHED; the code then invokes the feedback
collaborator twice and navigates to the feedback route of interview i1
twice, not at most once as the specification requires. -/
theorem finished_reobserved_fires_feedback_twice :
    ((runAgent propsNormW fbW [AgentEvent.callEnd, AgentEvent.message msgW]).2.countP
        isFeedbackCall = 2) ∧
    ((runAgent propsNormW fbW [AgentEvent.callEnd, AgentEvent.message msgW]).2.countP
        (isNavigateTo "/interview/i1/feedback") = 2) := by
  constructor <;> rfl

/-- Claim C2: over any sequence of message events, the transcript equals
the final transcript fragments in arrival order, converted to saved
messages with the event role and transcript text; its length is the
number of final fragments, and non-final fragments leave it unchanged. -/
theorem transcript_accumulation (props : AgentProps) (fb : FeedbackResult)
    (ms : List VapiMessage) :
    (runAgent props fb (ms.map AgentEvent.message)).1.messages
        = (ms.filter isFinalTranscript).map newMessageOf ∧
    (runAgent props fb (ms.map AgentEvent.message)).1.messages.length
        = (ms.filter isFinalTranscript).length := by
  have h := runSteps_messages props fb ms initState
  constructor
  · simpa [runAgent, initState] using h
  · rw [runAgent, h]
    simp [initState]

/-- Claim C9: an error event only produces a console log and changes no
state cell; a speech-start or speech-end event writes only the speaking
indicator, leaving status, transcript and last message unchanged, and
triggers no completion-effect run. -/
theorem error_and_speech_frame (props : AgentProps) (fb : FeedbackResult)
    (st : AgentState) :
    stepAgent props fb st AgentEvent.errorEvt = (st, [Effect.logConsole "Error:"]) ∧
    stepAgent props fb st AgentEvent.speechStart
        = ({ st with isSpeaking := true }, [Effect.setSpeaking true]) ∧
    stepAgent props fb st AgentEvent.speechEnd
        = ({ st with isSpeaking := false }, [Effect.setSpeaking false]) := by
  refine ⟨?_, ?_, ?_⟩ <;>
    simp [stepAgent, handlerEffects, onError, onSpeechStart, onSpeechEnd,
      applyEffects, applyEffect]

/-- Claim C10: in every reachable state of a mounted component, the
displayed last message equals the content of the most recently appended
transcript message whenever the transcript is non-empty, and it is never
updated (stays the initial empty string) while the transcript is empty. -/
theorem last_message_invariant (props : AgentProps) (fb : FeedbackResult)
    (events : List AgentEvent) :
    lastMsgInv (runAgent props fb events).1 :=
  runSteps_inv props fb events initState initState_inv

/-- Witness for claim C10 at a concrete run: after one final transcript
fragment, the displayed last message is that fragment's text. -/
theorem last_message_invariant_witness :
    (runAgent propsNormW fbW [AgentEvent.message msgW]).1.lastMessage
      = (newMessageOf msgW).content :=
  (last_message_invariant propsNormW fbW [AgentEvent.message msgW]).2
    (newMessageOf msgW) (by decide)

/-- Claim C3: pressing Call in generate mode with no configured workflow
identifier produces exactly a CONNECTING write, a user-facing alert and a
revert to INACTIVE: no external session start call is made and the status
ends INACTIVE. -/
theorem generate_missing_workflow_id (props : AgentProps) (env : Option String)
    (ip : Bool) (res : StartResult) (st : AgentState)
    (hgen : props.type = AgentType.generate) (henv : truthyOpt env = false) :
    handleCall props env ip res
        = [Effect.setStatus CallStatus.CONNECTING,
           Effect.alertUser
             "Vapi Workflow ID must be provided to start the call for \x27generate\x27 type.",
           Effect.setStatus CallStatus.INACTIVE] ∧
    (handleCall props env ip res).any isVapiStart = false ∧
    (applyEffects st (handleCall props env ip res)).callStatus
        = CallStatus.INACTIVE := by
  have h : handleCall props env ip res
      = [Effect.setStatus CallStatus.CONNECTING,
         Effect.alertUser
           "Vapi Workflow ID must be provided to start the call for \x27generate\x27 type.",
         Effect.setStatus CallStatus.INACTIVE] := by
    simp [handleCall, hgen, henv]
  refine ⟨h, ?_, ?_⟩ <;> rw [h] <;> rfl

/-- Witness for claim C3 at generate-mode props and an absent workflow
identifier. -/
theorem generate_missing_workflow_id_witness :
    (handleCall propsGenW none true StartResult.ok).any isVapiStart = false ∧
    (applyEffects initState (handleCall propsGenW none true StartResult.ok)).callStatus
        = CallStatus.INACTIVE := by
  have h := generate_missing_workflow_id propsGenW none true StartResult.ok initState
    rfl rfl
  exact ⟨h.2.1, h.2.2⟩

/-- Claim C4: the completion effect invokes the feedback collaborator only
when the mode is normal and both the interview and the user identifier are
truthy; in every other FINISHED case it navigates to the landing route,
submits no feedback and raises no user-facing alert. -/
theorem feedback_guard (props : AgentProps) (fb : FeedbackResult) (st : AgentState)
    (h : ¬ (props.type = AgentType.normal ∧ truthyOpt props.interviewId = true ∧
            truthyStr props.userId = true)) :
    (completionEffect props fb st).any isFeedbackCall = false ∧
    (st.callStatus = CallStatus.FINISHED →
      Effect.navigate "/" ∈ completionEffect props fb st ∧
      (completionEffect props fb st).any isAlert = false) := by
  by_cases hfin : st.callStatus = CallStatus.FINISHED
  · cases htype : props.type with
    | generate =>
      refine ⟨?_, fun _ => ⟨?_, ?_⟩⟩ <;>
        cases hl : st.messages.getLast? <;>
        simp [completionEffect, hfin, htype, hl, isFeedbackCall, isAlert]
    | normal =>
      have hguard : (!(truthyOpt props.interviewId) || !(truthyStr props.userId))
          = true := by
        cases hi : truthyOpt props.interviewId
        · simp
        · cases hu : truthyStr props.userId
          · simp
          · exact absurd ⟨htype, hi, hu⟩ h
      refine ⟨?_, fun _ => ⟨?_, ?_⟩⟩ <;>
        cases hl : st.messages.getLast? <;>
        simp [completionEffect, hfin, htype, hl, handleGenerateFeedback, hguard,
          isFeedbackCall, isAlert]
  · refine ⟨?_, fun hf => absurd hf hfin⟩
    cases hl : st.messages.getLast? <;>
      simp [completionEffect, hfin, hl, isFeedbackCall]

/-- Witness for claim C4 at generate-mode props and a FINISHED state. -/
theorem feedback_guard_witness :
    (completionEffect propsGenW fbW stFin).any isFeedbackCall = false ∧
    (Effect.navigate "/" ∈ completionEffect propsGenW fbW stFin ∧
     (completionEffect propsGenW fbW stFin).any isAlert = false) := by
  have h := feedback_guard propsGenW fbW stFin (by decide)
  exact ⟨h.1, h.2 rfl⟩

/-- Claim C5: in normal mode the text passed to the external session as
the questions variable is exactly `formatQuestions` of the question list:
each element prefixed with dash-space and joined with newlines, the empty
string for an absent or empty list, and `- a` newline `- b` for the list
of `a` and `b`. -/
theorem questions_formatting (props : AgentProps) (env : Option String)
    (res : StartResult) (hnorm : props.type = AgentType.normal) :
    Effect.vapiStartAssistant (formatQuestions props.questions)
        ∈ handleCall props env true res ∧
    (∀ qs : List String,
        formatQuestions (some qs)
          = String.intercalate "\n" (qs.map (fun question => "- " ++ question))) ∧
    formatQuestions none = "" ∧
    formatQuestions (some []) = "" ∧
    formatQuestions (some ["a", "b"]) = "- a\n- b" := by
  refine ⟨?_, fun qs => rfl, rfl, rfl, by decide⟩
  simp [handleCall, hnorm]

/-- Witness for claim C5 at concrete normal-mode props. -/
theorem questions_formatting_witness :
    Effect.vapiStartAssistant (formatQuestions propsNormW.questions)
        ∈ handleCall propsNormW none true StartResult.ok ∧
    formatQuestions (some ["a", "b"]) = "- a\n- b" := by
  have h := questions_formatting propsNormW none StartResult.ok rfl
  exact ⟨h.1, h.2.2.2.2⟩

/-- Claim C6: whenever the external start call is attempted and throws, in
either mode, the handler alerts the user with a text carrying the error
message (or a fallback when the message is falsy) and sets the status to
INACTIVE. -/
theorem start_failure_surfaces_error (props : AgentProps) (env : Option String)
    (ip : Bool) (msg : Option String) (st : AgentState)
    (hstart : (handleCall props env ip (StartResult.fail msg)).any isVapiStart
        = true) :
    Effect.alertUser ("Something went wrong: "
        ++ falsyOr msg "Failed to start interview.")
      ∈ handleCall props env ip (StartResult.fail msg) ∧
    (applyEffects st (handleCall props env ip (StartResult.fail msg))).callStatus
      = CallStatus.INACTIVE := by
  cases htype : props.type with
  | generate =>
    cases henv : truthyOpt env with
    | false =>
      exfalso
      simp [handleCall, htype, henv, isVapiStart] at hstart
    | true =>
      constructor
      · simp [handleCall, htype, henv]
      · simp [handleCall, htype, henv, applyEffects, applyEffect]
  | normal =>
    cases ip with
    | false =>
      exfalso
      simp [handleCall, htype, isVapiStart] at hstart
    | true =>
      constructor
      · simp [handleCall, htype]
      · simp [handleCall, htype, applyEffects, applyEffect]

/-- Witness for claim C6: a failing start in normal mode with error
message text boom. -/
theorem start_failure_surfaces_error_witness :
    Effect.alertUser ("Something went wrong: "
        ++ falsyOr (some "boom") "Failed to start interview.")
      ∈ handleCall propsNormW none true (StartResult.fail (some "boom")) ∧
    (applyEffects initState
        (handleCall propsNormW none true (StartResult.fail (some "boom")))).callStatus
      = CallStatus.INACTIVE :=
  start_failure_surfaces_error propsNormW none true (some "boom") initState (by decide)

/-- Claim C7: starting a session always writes CONNECTING first, before
any other transition, and across all component steps the status can newly
become FINISHED only through a call-end event or the explicit
disconnect. -/
theorem status_transitions (props : AgentProps) :
    (∀ (env : Option String) (ip : Bool) (res : StartResult),
        (handleCall props env ip res).head?
          = some (Effect.setStatus CallStatus.CONNECTING)) ∧
    (∀ (fb : FeedbackResult) (st : AgentState) (e : AgentEvent),
        (stepAgent props fb st e).1.callStatus = CallStatus.FINISHED →
          st.callStatus = CallStatus.FINISHED ∨ e = AgentEvent.callEnd ∨
          e = AgentEvent.disconnect) := by
  constructor
  · intro env ip res
    rfl
  · intro fb st e hfin
    rw [stepAgent_callStatus] at hfin
    cases e with
    | callEnd => exact Or.inr (Or.inl rfl)
    | disconnect => exact Or.inr (Or.inr rfl)
    | callStart =>
      exfalso
      simp [handlerEffects, onCallStart, applyEffects, applyEffect] at hfin
    | message m =>
      left
      revert hfin
      simp only [handlerEffects, onMessage]
      cases hm : isFinalTranscript m with
      | false => intro hfin; simpa [applyEffects] using hfin
      | true => intro hfin; simpa [applyEffects, applyEffect] using hfin
    | speechStart =>
      left
      simpa [handlerEffects, onSpeechStart, applyEffects, applyEffect] using hfin
    | speechEnd =>
      left
      simpa [handlerEffects, onSpeechEnd, applyEffects, applyEffect] using hfin
    | errorEvt =>
      left
      simpa [handlerEffects, onError, applyEffects, applyEffect] using hfin
    | userStart env ip res =>
      exfalso
      simp only [handlerEffects] at hfin
      rcases handleCall_apply props env ip res st with hc | hc <;>
        rw [hc] at hfin <;> simp at hfin

/-- Witness for claim C7: the start handler leads with CONNECTING, and a
step that finishes from the initial state is the call-end event. -/
theorem status_transitions_witness :
    ((handleCall propsGenW none true StartResult.ok).head?
        = some (Effect.setStatus CallStatus.CONNECTING)) ∧
    (initState.callStatus = CallStatus.FINISHED ∨
      AgentEvent.callEnd = AgentEvent.callEnd ∨
      AgentEvent.callEnd = AgentEvent.disconnect) :=
  ⟨(status_transitions propsGenW).1 none true StartResult.ok,
   (status_transitions propsGenW).2 fbW initState AgentEvent.callEnd (by decide)⟩

/-- Claim C8: whenever the status is FINISHED in generate mode, the
completion effect navigates to the landing route, and in generate mode the
feedback collaborator is never invoked. -/
theorem generate_finished_redirect (props : AgentProps) (fb : FeedbackResult)
    (st : AgentState) (hgen : props.type = AgentType.generate) :
    (st.callStatus = CallStatus.FINISHED →
        Effect.navigate "/" ∈ completionEffect props fb st) ∧
    (completionEffect props fb st).any isFeedbackCall = false := by
  constructor
  · intro hfin
    cases hl : st.messages.getLast? <;> simp [completionEffect, hfin, hgen, hl]
  · by_cases hfin : st.callStatus = CallStatus.FINISHED <;>
      cases hl : st.messages.getLast? <;>
      simp [completionEffect, hfin, hgen, hl, isFeedbackCall]

/-- Witness for claim C8 at generate-mode props and a FINISHED state. -/
theorem generate_finished_redirect_witness :
    Effect.navigate "/" ∈ completionEffect propsGenW fbW stFin ∧
    (completionEffect propsGenW fbW stFin).any isFeedbackCall = false := by
  have h := generate_finished_redirect propsGenW fbW stFin rfl
  exact ⟨h.1 rfl, h.2⟩
